import Mathlib

/-!
# Verification of the hackmit image-to-music pipeline core

Shallow embedding, in Lean 4, of the core services of the repository:

* `Suno` — the music-generation adapter
  (`src/backend/src/core/suno/api/check-status/route.ts`, class `SunoHackMITAPI`);
* `Claude` — the vision/analysis adapter
  (`src/backend/src/core/claude/index.ts`, class `ClaudeService`);
* `MusicStore` — the per-device stored-music cache
  (`src/backend/src/services/musicStorageService.ts`, class `MusicStorageService`);
* `ImageBuffer` — the image buffer and scene-change detector
  (`src/services/imageBufferService.ts`, class `ImageBufferService`);
* `Orchestrator` — the per-device in-flight guard of the streaming pipeline
  (`src/backend/src/sockets/imageStreamSocket.ts`, class `ImageStreamSocketServer`).

External effects are passed in as explicit parameters: the HTTP transports, the
`sharp` image pipeline (resize / recompress / downsample), the `md5` content
hash and the random draw of `Math.random()` are functions supplied to the
embedded operations, and wall-clock time is made explicit (timestamps in
milliseconds, poll counters).  JavaScript `Map`s are modelled as
insertion-ordered association lists, matching the iteration order that
`Array.from(map.entries())` exposes to the eviction routines.
-/

namespace HackMIT

open scoped List

/-! ## Insertion-ordered map model

JavaScript `Map` semantics for the pieces the services use: `set` overwrites
in place when the key exists and appends otherwise, `get` returns the value at
the first (only) matching key, `delete` removes the key.  `Array.from(m)`
iterates in insertion order, which is exactly the underlying list. -/

/-- `map.set k v`: replace in place if `k` is present, else append. -/
def mapSet {α : Type} (m : List (String × α)) (k : String) (v : α) :
    List (String × α) :=
  if m.any (fun e => e.1 = k) then
    m.map (fun e => if e.1 = k then (k, v) else e)
  else
    m ++ [(k, v)]

/-- `map.get k`: the value at key `k`, when present. -/
def mapGet {α : Type} (m : List (String × α)) (k : String) : Option α :=
  (m.find? (fun e => e.1 = k)).map Prod.snd

/-- A sequence of `map.delete k`, one per listed key, as the eviction loops
`for (const [id] of toRemove) this.buffer.delete(id)` perform. -/
def mapDeleteAll {α : Type} (m : List (String × α)) (ks : List String) :
    List (String × α) :=
  ks.foldl (fun acc k => acc.filter (fun e => decide (e.1 ≠ k))) m

/-- Shared shape of `ImageBufferService.maintainBufferSize` and
`MusicStorageService.maintainCacheSize`: when the map holds more than
`maxSize` entries, sort the entries by ascending timestamp (the JS comparator
`(a, b) => ts(a) - ts(b)` under a stable sort) and delete the first
`size - maxSize` of them. -/
def evictOldest {α : Type} (ts : α → Nat) (maxSize : Nat)
    (m : List (String × α)) : List (String × α) :=
  if m.length ≤ maxSize then m
  else
    let sorted := m.mergeSort (fun a b => decide (ts a.2 ≤ ts b.2))
    let toRemove := (sorted.take (m.length - maxSize)).map Prod.fst
    mapDeleteAll m toRemove

/-! ## Generation adapter (`SunoHackMITAPI`) -/

namespace Suno

/-- Lifecycle states of a clip
(`status: 'submitted' | 'queued' | 'generating' | 'complete' | 'error'`). -/
inductive ClipStatus where
  | submitted
  | queued
  | generating
  | complete
  | error
  deriving DecidableEq, Repr

/-- The fields of `SunoClip` the adapter inspects. -/
structure SunoClip where
  id : String
  status : ClipStatus
  title : String
  audioUrl : Option String
  imageUrl : Option String
  errorMessage : Option String
  deriving DecidableEq, Repr

/-- A `SunoGenerateRequest` (the fields `generateMusic` validates or forwards). -/
structure SunoGenerateRequest where
  topic : Option String
  tags : Option String
  makeInstrumental : Option Bool
  deriving DecidableEq, Repr

/-- The error taxonomy the adapter's thrown `Error`s fall into. -/
inductive SunoError where
  | validation (msg : String)
  | generationFailed (msg : String)
  | timeoutError (msg : String)
  | notFound (msg : String)
  | transport (msg : String)
  deriving DecidableEq, Repr

/-- JavaScript truthiness of an optional string (`undefined` and `""` are
falsy), as used by the guards `request.topic && ...`. -/
def strTruthy : Option String → Bool
  | none => false
  | some s => !s.isEmpty

/-- JavaScript `s || dflt` on an optional string: the default replaces both a
missing and an empty string. -/
def jsOrStr (s : Option String) (dflt : String) : String :=
  match s with
  | none => dflt
  | some s => if s.isEmpty then dflt else s

/-- `SunoHackMITAPI.generateMusic`.  The length guards run before
`makeRequest`; `transport` stands for the network call, and the second
component counts how often it was invoked. -/
def generateMusic
    (transport : SunoGenerateRequest → Except SunoError SunoClip)
    (request : SunoGenerateRequest) : Except SunoError SunoClip × Nat :=
  if strTruthy request.topic && decide ((request.topic.getD "").length > 500) then
    (Except.error (SunoError.validation "Topic must be 500 characters or less"), 0)
  else if strTruthy request.tags && decide ((request.tags.getD "").length > 100) then
    (Except.error (SunoError.validation "Tags must be 100 characters or less"), 0)
  else
    (transport request, 1)

/-- `SunoHackMITAPI.getClips`: reject an empty id list, then return the
transport's response as-is. -/
def getClips
    (fetchClips : List String → Except SunoError (List SunoClip))
    (clipIds : List String) : Except SunoError (List SunoClip) :=
  if clipIds.isEmpty then
    Except.error (SunoError.validation "Clip IDs are required for /clips endpoint")
  else
    fetchClips clipIds

/-- `SunoHackMITAPI.getClip`: single-id lookup through `getClips`, signalling
not-found when the requested id is absent from the response. -/
def getClip
    (fetchClips : List String → Except SunoError (List SunoClip))
    (clipId : String) : Except SunoError SunoClip :=
  match getClips fetchClips [clipId] with
  | Except.error e => Except.error e
  | Except.ok clips =>
    match clips.find? (fun c => c.id = clipId) with
    | some clip => Except.ok clip
    | none => Except.error (SunoError.notFound ("Clip with ID " ++ clipId ++ " not found"))

/-- `SunoHackMITAPI.waitForCompletion`, loop body.  `poll k` is the clip that
the `k`-th `getClip` call returns; `elapsed` tracks `Date.now() - startTime`,
advanced by `pollIntervalMs` per sleep (the poll itself is instantaneous in
the model).  The positivity of the poll interval makes the loop terminate. -/
def waitLoop (poll : Nat → SunoClip) (clipId : String)
    (timeoutMs pollIntervalMs : Nat) (hp : 0 < pollIntervalMs)
    (k elapsed : Nat) : Except SunoError SunoClip :=
  if h : elapsed < timeoutMs then
    if (poll k).status = ClipStatus.complete then
      Except.ok (poll k)
    else if (poll k).status = ClipStatus.error then
      Except.error (SunoError.generationFailed
        ("Generation failed: " ++ jsOrStr (poll k).errorMessage "Unknown error"))
    else
      waitLoop poll clipId timeoutMs pollIntervalMs hp (k + 1) (elapsed + pollIntervalMs)
  else
    Except.error (SunoError.timeoutError
      ("Timeout waiting for clip " ++ clipId ++ " to complete"))
termination_by timeoutMs - elapsed
decreasing_by omega

/-- `SunoHackMITAPI.waitForCompletion` (defaults in the source:
`timeoutMs = 120000`, `pollIntervalMs = 2000`). -/
def waitForCompletion (poll : Nat → SunoClip) (clipId : String)
    (timeoutMs pollIntervalMs : Nat) (hp : 0 < pollIntervalMs) :
    Except SunoError SunoClip :=
  waitLoop poll clipId timeoutMs pollIntervalMs hp 0 0

/-- The default poll interval of `waitForCompletion`. -/
def defaultPollIntervalMs : Nat := 2000

/-- The default timeout of `waitForCompletion`. -/
def defaultTimeoutMs : Nat := 120000

end Suno

/-! ## Analysis adapter (`ClaudeService`) -/

namespace Claude

/-- `MusicPromptResult` (`generatedAt` is the epoch-milliseconds reading of the
ISO timestamp string). -/
structure MusicPromptResult where
  prompt : String
  sceneDescription : String
  makeInstrumental : Bool
  confidence : ℚ
  generatedAt : Nat
  processingTime : Nat
  deriving DecidableEq, Repr

/-- The `(prompt, makeInstrumental, sceneDescription)` triple that
`parseClaudeResponse` produces and `getFallbackPrompt` draws from. -/
structure ParsedPrompt where
  prompt : String
  makeInstrumental : Bool
  sceneDescription : String
  deriving DecidableEq, Repr

/-- The double-quote character. -/
def quoteChar : Char := Char.ofNat 34

/-- The single-quote character. -/
def singleQuoteChar : Char := Char.ofNat 39

/-- `.replace(/^["']|["']$/g, '')`: drop one wrapping quote character at each
end of the string. -/
def stripWrappingQuotes (s : String) : String :=
  let isQuote := fun c => c = quoteChar || c = singleQuoteChar
  let s1 := match s.toList with
    | c :: _ => if isQuote c then s.drop 1 else s
    | [] => s
  match s1.toList.getLast? with
  | some c => if isQuote c then s1.dropRight 1 else s1
  | none => s1

/-- `.replace(/\n/g, ' ').replace(/\s+/g, ' ')` with the later `.trim()`
folded in: every maximal run of whitespace becomes a single space and the
ends are trimmed. -/
def collapseWhitespace (s : String) : String :=
  String.intercalate " " ((s.split Char.isWhitespace).filter (fun t => !t.isEmpty))

/-- Remove the first occurrence of `pat` from `s`, when there is one. -/
def removeFirst (s pat : String) : Option String :=
  match s.splitOn pat with
  | [] => none
  | [_] => none
  | a :: rest => some (a ++ String.intercalate pat rest)

/-- `.replace(/,\s*15\s*seconds?/i, '')`, rendered for the
whitespace-collapsed string (so `\s*` matches at most one space); the `/i`
flag is dropped since the adapter lowercases the result anyway. -/
def remove15Seconds (s : String) : String :=
  let pats := [", 15 seconds", ",15 seconds", ", 15 second", ",15 second"]
  match pats.findSome? (fun pat => removeFirst s pat) with
  | some t => t
  | none => s

/-- `ClaudeService.cleanMusicPrompt`: strip wrapping quotes, collapse
whitespace and newlines, remove a literal "15 seconds" fragment, trim,
lowercase. -/
def cleanMusicPrompt (rawPrompt : String) : String :=
  (remove15Seconds (collapseWhitespace (stripWrappingQuotes rawPrompt))).toLower

/-- Whether `pat` occurs as a substring of `s` (JS `String.includes`, for a
non-empty needle). -/
def containsSubstring (s pat : String) : Bool :=
  (s.splitOn pat).length > 1

/-- Keywords that suggest instrumental music. -/
def instrumentalKeywords : List String :=
  ["ambient", "classical", "electronic", "minimal", "study", "focus",
   "meditation", "calm", "peaceful"]

/-- Keywords that suggest vocal music. -/
def vocalKeywords : List String :=
  ["pop", "rock", "jazz", "folk", "energetic", "upbeat", "social"]

/-- `ClaudeService.inferInstrumental`: default to instrumental when ambiguous
or when instrumental keywords are present. -/
def inferInstrumental (prompt : String) : Bool :=
  let lowerPrompt := prompt.toLower
  let hasInstrumental := instrumentalKeywords.any (fun k => containsSubstring lowerPrompt k)
  let hasVocal := vocalKeywords.any (fun k => containsSubstring lowerPrompt k)
  hasInstrumental || !hasVocal

/-- `ClaudeService.parseClaudeResponse`.  `jsonParse` stands for `JSON.parse`
plus the field validation (`parsed.prompt` truthy, `makeInstrumental` a
boolean, `sceneDescription` truthy): `some` is the validated JSON object,
`none` is a parse/validation failure, in which case the raw text becomes the
prompt itself. -/
def parseClaudeResponse (jsonParse : String → Option ParsedPrompt)
    (rawResponse : String) : ParsedPrompt :=
  match jsonParse rawResponse with
  | some parsed =>
    { prompt := cleanMusicPrompt parsed.prompt,
      makeInstrumental := parsed.makeInstrumental,
      sceneDescription := parsed.sceneDescription }
  | none =>
    let cleanPrompt := cleanMusicPrompt rawResponse
    { prompt := cleanPrompt,
      makeInstrumental := inferInstrumental cleanPrompt,
      sceneDescription := "Parsed from text response" }

/-- The four fixed fallback tuples of `ClaudeService.getFallbackPrompt`. -/
def fallbacks : List ParsedPrompt :=
  [{ prompt := "ambient instrumental, calm, medium tempo, soft piano",
     makeInstrumental := true,
     sceneDescription := "Fallback - peaceful ambient setting" },
   { prompt := "smooth jazz, relaxed, slow tempo, piano and light drums",
     makeInstrumental := false,
     sceneDescription := "Fallback - social jazz setting" },
   { prompt := "acoustic folk, peaceful, medium tempo, guitar and strings",
     makeInstrumental := true,
     sceneDescription := "Fallback - natural peaceful setting" },
   { prompt := "minimal electronic, focused, medium tempo, soft synths",
     makeInstrumental := true,
     sceneDescription := "Fallback - work/focus environment" }]

/-- `ClaudeService.getFallbackPrompt`: `fallbacks[Math.floor(Math.random() * 4)]`;
the random draw is passed in as `rand : Fin 4`. -/
def getFallbackPrompt (rand : Fin 4) : ParsedPrompt :=
  fallbacks.get ⟨rand.1, rand.isLt⟩

/-- `ClaudeService.generateMusicFromImage`.  `visionCall` is the outcome of
the axios request (`Except.ok` carries the response text, `Except.error` any
thrown request error); the `catch` branch substitutes a fallback tuple with
confidence forced to `0.1`, while a successful parse gets the fixed `0.85`. -/
def generateMusicFromImage
    (visionCall : Except String String)
    (jsonParse : String → Option ParsedPrompt)
    (rand : Fin 4)
    (generatedAt processingTime : Nat) : MusicPromptResult :=
  match visionCall with
  | Except.ok rawResponse =>
    let parsed := parseClaudeResponse jsonParse (rawResponse.trim)
    { prompt := parsed.prompt,
      sceneDescription := parsed.sceneDescription,
      makeInstrumental := parsed.makeInstrumental,
      confidence := 85 / 100,
      generatedAt := generatedAt,
      processingTime := processingTime }
  | Except.error _ =>
    let fallback := getFallbackPrompt rand
    { prompt := fallback.prompt,
      sceneDescription := fallback.sceneDescription,
      makeInstrumental := fallback.makeInstrumental,
      confidence := 1 / 10,
      generatedAt := generatedAt,
      processingTime := processingTime }

end Claude

/-! ## Stored-music cache (`MusicStorageService`) -/

namespace MusicStore

/-- `StoredMusicData` (`timestamp` is the epoch-milliseconds reading of the
ISO timestamp string, as `new Date(t).getTime()` exposes it to eviction). -/
structure StoredMusicData where
  musicUrl : String
  imageUrl : Option String
  sceneDescription : String
  prompt : String
  title : String
  makeInstrumental : Bool
  clipId : String
  imageId : String
  processingTime : Nat
  timestamp : Nat
  deviceId : String
  userId : Option String
  deriving DecidableEq, Repr

/-- The music cache: a JS `Map` keyed by device id. -/
abbrev MusicCache := List (String × StoredMusicData)

/-- `MusicStorageService.maintainCacheSize` (default `maxCacheSize = 100`). -/
def maintainCacheSize (maxCacheSize : Nat) (cache : MusicCache) : MusicCache :=
  evictOldest (fun d => d.timestamp) maxCacheSize cache

/-- `MusicStorageService.storeMusic`: overwrite the device's single slot with
the data (the `deviceId` field set from the key), then maintain the global
cache bound. -/
def storeMusic (maxCacheSize : Nat) (cache : MusicCache) (deviceId : String)
    (musicData : StoredMusicData) : MusicCache :=
  let dataWithDevice := { musicData with deviceId := deviceId }
  maintainCacheSize maxCacheSize (mapSet cache deviceId dataWithDevice)

/-- `MusicStorageService.getLatestMusic`: plain keyed lookup. -/
def getLatestMusic (cache : MusicCache) (deviceId : String) : Option StoredMusicData :=
  mapGet cache deviceId

/-- A concrete `StoredMusicData` used to evaluate the cache operations. -/
def demoEntry (deviceId : String) (timestamp : Nat) : StoredMusicData :=
  { musicUrl := "http://cdn/a.mp3", imageUrl := none, sceneDescription := "scene",
    prompt := "prompt", title := "title", makeInstrumental := true,
    clipId := "clip", imageId := "image", processingTime := 7,
    timestamp := timestamp, deviceId := deviceId, userId := none }

end MusicStore

/-! ## Image buffer and scene-change detector (`ImageBufferService`) -/

namespace ImageBuffer

/-- `ImageMetadata` (`timestamp` is the epoch-milliseconds reading of the ISO
string; `width`/`height` come from the external `sharp` metadata call and no
claim concerns them, so they are omitted). -/
structure ImageMetadata where
  id : String
  deviceId : String
  userId : Option String
  timestamp : Nat
  mimeType : String
  size : Nat
  hash : String
  deriving DecidableEq, Repr

/-- `BufferedImage`: metadata plus the raw byte buffer (the `base64` field is
a pure recoding of `buffer` and is omitted). -/
structure BufferedImage where
  metadata : ImageMetadata
  buffer : List Nat
  deriving DecidableEq, Repr

/-- The global buffer: a JS `Map` keyed by image id. -/
abbrev BufferMap := List (String × BufferedImage)

/-- `ProcessingOptions`: `transform` is the `sharp`
resize/format-conversion/compression pipeline (external native code), and
`format` selects the output MIME type. -/
structure ProcessingOptions where
  transform : List Nat → List Nat
  format : Option String

/-- `ImageBufferService.processImage`: run the sharp pipeline and report
`image/<format>` (format defaults to `jpeg`). -/
def processImage (buffer : List Nat) (options : ProcessingOptions) :
    List Nat × String :=
  let format := options.format.getD "jpeg"
  (options.transform buffer, "image/" ++ format)

/-- `ImageBufferService.maintainBufferSize` (default `maxBufferSize = 20`):
delete oldest-by-timestamp entries globally until the count is within the
bound. -/
def maintainBufferSize (maxBufferSize : Nat) (buf : BufferMap) : BufferMap :=
  evictOldest (fun img => img.metadata.timestamp) maxBufferSize buf

/-- `ImageBufferService.addImage`.  The content hash `hashFn` (md5 in the
source) is computed on the inbound `imageBuffer` before any processing; the
record stores the post-processing bytes.  Returns the record together with
the updated buffer map. -/
def addImage (hashFn : List Nat → String) (maxBufferSize : Nat)
    (buf : BufferMap) (imageBuffer : List Nat) (deviceId : String)
    (mimeType : String) (userId : Option String) (timestamp : Nat)
    (options : Option ProcessingOptions) : BufferedImage × BufferMap :=
  let hash := hashFn imageBuffer
  let id := deviceId ++ "_" ++ toString timestamp ++ "_" ++ hash.take 8
  let processed := match options with
    | some opts => processImage imageBuffer opts
    | none => (imageBuffer, mimeType)
  let bufferedImage : BufferedImage :=
    { metadata :=
        { id := id, deviceId := deviceId, userId := userId,
          timestamp := timestamp, mimeType := processed.2,
          size := processed.1.length, hash := hash },
      buffer := processed.1 }
  (bufferedImage, maintainBufferSize maxBufferSize (mapSet buf id bufferedImage))

/-- `ImageBufferService.getRecentImages`: the device's records, newest first
(`.filter(...).sort((a, b) => tsb - tsa).slice(0, limit)`). -/
def getRecentImages (buf : BufferMap) (deviceId : String) (limit : Nat) :
    List BufferedImage :=
  (((buf.map Prod.snd).filter (fun img => img.metadata.deviceId = deviceId)).mergeSort
    (fun a b => decide (b.metadata.timestamp ≤ a.metadata.timestamp))).take limit

/-- `ImageBufferService.getImageHistogram` as a function from bucket to
count.  `downsample` is the external `sharp(...).resize(64, 64).raw()`
pipeline producing the interleaved pixel bytes; the histogram counts each
byte value. -/
def getImageHistogram (downsample : List Nat → List (Fin 256))
    (buffer : List Nat) : Fin 256 → Nat :=
  fun v => (downsample buffer).count v

/-- `ImageBufferService.compareHistograms`: intersection-over-union of the
two 256-bucket histograms, `0` when the union is empty. -/
def compareHistograms (hist1 hist2 : Fin 256 → Nat) : ℚ :=
  if (∑ i : Fin 256, ((max (hist1 i) (hist2 i) : Nat) : ℚ)) = 0 then 0
  else (∑ i : Fin 256, ((min (hist1 i) (hist2 i) : Nat) : ℚ)) /
    (∑ i : Fin 256, ((max (hist1 i) (hist2 i) : Nat) : ℚ))

/-- `ImageBufferService.detectSceneChange` (default `threshold = 0.3`):
fewer than two records for the device means "changed"; otherwise changed iff
the histogram similarity of the two newest records drops below
`1 - threshold`. -/
def detectSceneChange (downsample : List Nat → List (Fin 256))
    (buf : BufferMap) (deviceId : String) (threshold : ℚ) : Bool :=
  let recent := getRecentImages buf deviceId 2
  if recent.length < 2 then true
  else
    match recent with
    | current :: previous :: _ =>
      let currentHist := getImageHistogram downsample current.buffer
      let previousHist := getImageHistogram downsample previous.buffer
      let similarity := compareHistograms currentHist previousHist
      decide (similarity < 1 - threshold)
    | _ => true

/-- The default scene-change threshold (`0.3`). -/
def defaultThreshold : ℚ := 3 / 10

/-- A concrete stand-in for the content hash used to evaluate `addImage` on
explicit byte lists (the source's md5 is likewise determined by the byte
buffer alone). -/
def demoHash (l : List Nat) : String :=
  toString (l.foldl (fun a b => a * 256 + b) 0)

/-- A concrete stand-in for the `sharp` downsampling pipeline used to
evaluate the detector on explicit byte lists: each byte maps to its bucket. -/
def demoDownsample (l : List Nat) : List (Fin 256) :=
  l.map (fun n => ⟨n % 256, Nat.mod_lt n (by decide)⟩)

/-- A concrete `BufferedImage` used to evaluate the buffer operations. -/
def demoImage (id deviceId : String) (timestamp : Nat) (buffer : List Nat) :
    BufferedImage :=
  { metadata :=
      { id := id, deviceId := deviceId, userId := none, timestamp := timestamp,
        mimeType := "image/jpeg", size := buffer.length, hash := demoHash buffer },
    buffer := buffer }

end ImageBuffer

/-! ## Streaming orchestrator guard (`ImageStreamSocketServer`) -/

namespace Orchestrator

/-- The orchestrator state observable by the per-device concurrency guard:
the `processingQueue` flag map, plus event logs of buffered frames and
submitted generation requests (each entry is the device id of the event). -/
structure StreamState where
  processingQueue : List (String × Bool)
  framesBuffered : List String
  generationsSubmitted : List String
  deriving DecidableEq, Repr

/-- `this.processingQueue.get(deviceId)` in boolean position: a missing key
is falsy. -/
def isProcessing (s : StreamState) (deviceId : String) : Bool :=
  (mapGet s.processingQueue deviceId).getD false

/-- One `image-frame` event for an active session (`handleImageFrame`): the
image is always added to the buffer; then, when `shouldProcessFrame` approves
the frame (`shouldProcess`) and no run is in flight for the device, the flag
is set and `processFrameAsync` starts, which submits exactly one generation
request for the run. -/
def handleImageFrame (s : StreamState) (deviceId : String)
    (shouldProcess : Bool) : StreamState :=
  let s1 := { s with framesBuffered := s.framesBuffered ++ [deviceId] }
  if shouldProcess && !(isProcessing s1 deviceId) then
    { s1 with
      processingQueue := mapSet s1.processingQueue deviceId true,
      generationsSubmitted := s1.generationsSubmitted ++ [deviceId] }
  else
    s1

/-- The `.finally` of `processFrameAsync`: the in-flight run for `deviceId`
ends and the flag clears (`this.processingQueue.set(deviceId, false)`). -/
def finishRun (s : StreamState) (deviceId : String) : StreamState :=
  { s with processingQueue := mapSet s.processingQueue deviceId false }

end Orchestrator

/-! ## Map lemmas -/

theorem mapGet_mapOverwrite_self {α : Type} (m : List (String × α)) (k : String)
    (v : α) (hany : m.any (fun e => e.1 = k) = true) :
    mapGet (m.map (fun e => if e.1 = k then (k, v) else e)) k = some v := by
  induction m with
  | nil => simp at hany
  | cons e es ih =>
    by_cases he : e.1 = k
    · simp [mapGet, List.find?_cons, he]
    · have hany2 : es.any (fun e => e.1 = k) = true := by
        simpa [List.any_cons, he] using hany
      simpa [mapGet, List.find?_cons, he] using ih hany2

theorem mapGet_append_singleton_self {α : Type} (m : List (String × α))
    (k : String) (v : α) (hany : m.any (fun e => e.1 = k) = false) :
    mapGet (m ++ [(k, v)]) k = some v := by
  induction m with
  | nil => simp [mapGet, List.find?_cons]
  | cons e es ih =>
    have he : ¬ e.1 = k := by
      intro h
      simp [List.any_cons, h] at hany
    have hany2 : es.any (fun e => e.1 = k) = false := by
      simpa [List.any_cons, he] using hany
    simpa [mapGet, List.find?_cons, he] using ih hany2

theorem mapGet_mapSet_self {α : Type} (m : List (String × α)) (k : String) (v : α) :
    mapGet (mapSet m k v) k = some v := by
  unfold mapSet
  cases hany : m.any (fun e => e.1 = k) with
  | true => simpa [hany] using mapGet_mapOverwrite_self m k v hany
  | false => simpa [hany] using mapGet_append_singleton_self m k v hany

theorem mapGet_mapOverwrite_ne {α : Type} (m : List (String × α)) (k k2 : String)
    (v : α) (hne : k2 ≠ k) :
    mapGet (m.map (fun e => if e.1 = k then (k, v) else e)) k2 = mapGet m k2 := by
  induction m with
  | nil => simp [mapGet]
  | cons e es ih =>
    rw [List.map_cons]
    by_cases he : e.1 = k
    · have hfe : (if e.1 = k then (k, v) else e) = (k, v) := if_pos he
      rw [hfe]
      simpa [mapGet, List.find?_cons, Ne.symm hne, he] using ih
    · have hfe : (if e.1 = k then (k, v) else e) = e := if_neg he
      rw [hfe]
      by_cases he2 : e.1 = k2
      · simp [mapGet, List.find?_cons, he2]
      · simpa [mapGet, List.find?_cons, he2] using ih

theorem mapGet_append_singleton_ne {α : Type} (m : List (String × α))
    (k k2 : String) (v : α) (hne : k2 ≠ k) :
    mapGet (m ++ [(k, v)]) k2 = mapGet m k2 := by
  induction m with
  | nil => simp [mapGet, List.find?_cons, Ne.symm hne]
  | cons e es ih =>
    by_cases he2 : e.1 = k2
    · simp [mapGet, List.find?_cons, he2]
    · simpa [mapGet, List.find?_cons, he2] using ih

theorem mapGet_mapSet_ne {α : Type} (m : List (String × α)) (k k2 : String) (v : α)
    (hne : k2 ≠ k) : mapGet (mapSet m k v) k2 = mapGet m k2 := by
  unfold mapSet
  cases hany : m.any (fun e => e.1 = k) with
  | true => simpa [hany] using mapGet_mapOverwrite_ne m k k2 v hne
  | false => simpa [hany] using mapGet_append_singleton_ne m k k2 v hne

/-! ## Generation adapter theorems -/

theorem strTruthy_of_length_lt (o : Option String) (n : Nat)
    (hlt : n < (o.getD "").length) (hn : 0 < n) : Suno.strTruthy o = true := by
  cases o with
  | none => simp at hlt
  | some t =>
    simp only [Option.getD_some] at hlt
    cases hb : t.isEmpty with
    | false => simp [Suno.strTruthy, hb]
    | true =>
      rw [String.isEmpty_iff] at hb
      subst hb
      simp at hlt

/-- C5: a `generateMusic` call whose topic exceeds 500 characters or whose
tags exceed 100 characters produces a validation error and never invokes the
transport (the second component counts transport invocations). -/
theorem generateMusic_validation_before_transport
    (transport : Suno.SunoGenerateRequest → Except Suno.SunoError Suno.SunoClip)
    (request : Suno.SunoGenerateRequest)
    (h : 500 < (request.topic.getD "").length ∨ 100 < (request.tags.getD "").length) :
    (Suno.generateMusic transport request).2 = 0 ∧
    ∃ msg, (Suno.generateMusic transport request).1 =
      Except.error (Suno.SunoError.validation msg) := by
  unfold Suno.generateMusic
  by_cases h1 : (Suno.strTruthy request.topic &&
      decide ((request.topic.getD "").length > 500)) = true
  · rw [if_pos h1]
    exact ⟨rfl, _, rfl⟩
  · rw [if_neg h1]
    have h2 : 100 < (request.tags.getD "").length := by
      rcases h with h | h
      · exfalso
        apply h1
        have ht := strTruthy_of_length_lt request.topic 500 h (by omega)
        simp [ht, h]
      · exact h
    have ht := strTruthy_of_length_lt request.tags 100 h2 (by omega)
    rw [if_pos (by simp [ht, h2])]
    exact ⟨rfl, _, rfl⟩

theorem generateMusic_validation_witness :
    (Suno.generateMusic
        (fun _ => Except.error (Suno.SunoError.transport "unreachable"))
        { topic := some (String.mk (List.replicate 501 (Char.ofNat 97))),
          tags := none, makeInstrumental := none }).2 = 0 ∧
    ∃ msg, (Suno.generateMusic
        (fun _ => Except.error (Suno.SunoError.transport "unreachable"))
        { topic := some (String.mk (List.replicate 501 (Char.ofNat 97))),
          tags := none, makeInstrumental := none }).1 =
      Except.error (Suno.SunoError.validation msg) :=
  generateMusic_validation_before_transport _ _ (Or.inl (by
    rw [Option.getD_some, String.length_mk, List.length_replicate]
    omega))

/-- C3, counterexample: a non-empty id list whose requested id is absent from
the transport's response makes `getClips` return the truncated response
unchanged — no `NotFoundError` is signalled by the batch lookup. -/
theorem getClips_missing_id_counterexample :
    Suno.getClips (fun _ => Except.ok []) ["missing-id"] = Except.ok [] ∧
    ([] : List Suno.SunoClip).all (fun c => c.id ≠ "missing-id") = true :=
  ⟨rfl, rfl⟩

/-- C3, amended: `getClips` performs no absence check — it forwards the
transport's response as-is for any non-empty id list; the absence check lives
in the single-id wrapper `getClip`, which signals `NotFoundError` when its
requested id is missing from the response. -/
theorem getClips_passthrough_and_getClip_notFound
    (fetchClips : List String → Except Suno.SunoError (List Suno.SunoClip))
    (clipIds : List String) (clipId : String) (clips : List Suno.SunoClip)
    (hne : clipIds ≠ [])
    (hok : fetchClips [clipId] = Except.ok clips)
    (habsent : clips.find? (fun c => c.id = clipId) = none) :
    Suno.getClips fetchClips clipIds = fetchClips clipIds ∧
    Suno.getClip fetchClips clipId =
      Except.error (Suno.SunoError.notFound ("Clip with ID " ++ clipId ++ " not found")) := by
  constructor
  · unfold Suno.getClips
    rw [if_neg]
    simp [List.isEmpty_iff, hne]
  · unfold Suno.getClip Suno.getClips
    rw [if_neg (by simp)]
    rw [hok]
    simp [habsent]

theorem getClips_passthrough_and_getClip_notFound_witness :
    Suno.getClips (fun ids => Except.ok []) ["a"] = (fun _ => Except.ok []) ["a"] ∧
    Suno.getClip (fun ids => Except.ok []) "b" =
      Except.error (Suno.SunoError.notFound ("Clip with ID " ++ "b" ++ " not found")) :=
  getClips_passthrough_and_getClip_notFound (fun _ => Except.ok []) ["a"] "b" []
    (by simp) rfl rfl

theorem waitLoop_timeout_of_generating (poll : Nat → Suno.SunoClip)
    (clipId : String) (timeoutMs pollIntervalMs : Nat) (hp : 0 < pollIntervalMs)
    (hgen : ∀ n, (poll n).status = Suno.ClipStatus.generating) :
    ∀ fuel k elapsed, timeoutMs - elapsed ≤ fuel →
      Suno.waitLoop poll clipId timeoutMs pollIntervalMs hp k elapsed =
        Except.error (Suno.SunoError.timeoutError
          ("Timeout waiting for clip " ++ clipId ++ " to complete")) := by
  intro fuel
  induction fuel with
  | zero =>
    intro k elapsed hle
    rw [Suno.waitLoop]
    have hnl : ¬ elapsed < timeoutMs := by omega
    rw [dif_neg hnl]
  | succ n ih =>
    intro k elapsed hle
    rw [Suno.waitLoop]
    by_cases hlt : elapsed < timeoutMs
    · rw [dif_pos hlt, if_neg (by simp [hgen k]), if_neg (by simp [hgen k])]
      exact ih (k + 1) (elapsed + pollIntervalMs) (by omega)
    · rw [dif_neg hlt]

theorem waitLoop_shift (poll : Nat → Suno.SunoClip) (clipId : String)
    (timeoutMs pollIntervalMs : Nat) (hp : 0 < pollIntervalMs) (k : Nat)
    (hpre : ∀ j, j < k → (poll j).status = Suno.ClipStatus.generating)
    (hkT : k * pollIntervalMs < timeoutMs) :
    ∀ d i, i + d = k →
      Suno.waitLoop poll clipId timeoutMs pollIntervalMs hp i (i * pollIntervalMs) =
        Suno.waitLoop poll clipId timeoutMs pollIntervalMs hp k (k * pollIntervalMs) := by
  intro d
  induction d with
  | zero =>
    intro i hi
    have hik : i = k := by omega
    subst hik
    rfl
  | succ n ih =>
    intro i hi
    have hik : i < k := by omega
    have hiT : i * pollIntervalMs < timeoutMs := by
      have h1 : i * pollIntervalMs ≤ k * pollIntervalMs :=
        Nat.mul_le_mul_right pollIntervalMs (Nat.le_of_lt hik)
      omega
    conv_lhs => rw [Suno.waitLoop]
    rw [dif_pos hiT, if_neg (by simp [hpre i hik]), if_neg (by simp [hpre i hik])]
    have hstep : i * pollIntervalMs + pollIntervalMs = (i + 1) * pollIntervalMs := by
      ring
    rw [hstep]
    exact ih (i + 1) (by omega)

/-- C4: `waitForCompletion` polls the single clip on a fixed interval
(default 2000 ms): it returns the clip as soon as a poll reports `complete`
within the timeout, signals a generation failure carrying the remote error
message as soon as a poll reports `error`, and signals a timeout when every
poll inside the window reports `generating`. -/
theorem waitForCompletion_spec (poll : Nat → Suno.SunoClip) (clipId : String)
    (timeoutMs pollIntervalMs k : Nat) (hp : 0 < pollIntervalMs) :
    Suno.defaultPollIntervalMs = 2000 ∧
    ((∀ n, (poll n).status = Suno.ClipStatus.generating) →
      Suno.waitForCompletion poll clipId timeoutMs pollIntervalMs hp =
        Except.error (Suno.SunoError.timeoutError
          ("Timeout waiting for clip " ++ clipId ++ " to complete"))) ∧
    ((∀ j, j < k → (poll j).status = Suno.ClipStatus.generating) →
      k * pollIntervalMs < timeoutMs →
      ((poll k).status = Suno.ClipStatus.complete →
        Suno.waitForCompletion poll clipId timeoutMs pollIntervalMs hp =
          Except.ok (poll k)) ∧
      ((poll k).status = Suno.ClipStatus.error →
        Suno.waitForCompletion poll clipId timeoutMs pollIntervalMs hp =
          Except.error (Suno.SunoError.generationFailed
            ("Generation failed: " ++
              Suno.jsOrStr (poll k).errorMessage "Unknown error")))) := by
  refine ⟨rfl, ?_, ?_⟩
  · intro hgen
    exact waitLoop_timeout_of_generating poll clipId timeoutMs pollIntervalMs hp hgen
      timeoutMs 0 0 (by omega)
  · intro hpre hkT
    have hshift := waitLoop_shift poll clipId timeoutMs pollIntervalMs hp k hpre hkT
      k 0 (by omega)
    have hstart : Suno.waitForCompletion poll clipId timeoutMs pollIntervalMs hp =
        Suno.waitLoop poll clipId timeoutMs pollIntervalMs hp k (k * pollIntervalMs) := by
      unfold Suno.waitForCompletion
      rw [← hshift, Nat.zero_mul]
    constructor
    · intro hc
      rw [hstart]
      conv_lhs => rw [Suno.waitLoop]
      rw [dif_pos hkT, if_pos hc]
    · intro he
      rw [hstart]
      conv_lhs => rw [Suno.waitLoop]
      rw [dif_pos hkT, if_neg (by simp [he]), if_pos he]

theorem waitForCompletion_spec_witness :
    Suno.waitForCompletion
      (fun _ => { id := "clip-1", status := Suno.ClipStatus.generating, title := "",
                  audioUrl := none, imageUrl := none, errorMessage := none })
      "clip-1" 50 10 (by decide) =
      Except.error (Suno.SunoError.timeoutError
        ("Timeout waiting for clip " ++ "clip-1" ++ " to complete")) :=
  (waitForCompletion_spec
      (fun _ => { id := "clip-1", status := Suno.ClipStatus.generating, title := "",
                  audioUrl := none, imageUrl := none, errorMessage := none })
      "clip-1" 50 10 0 (by decide)).2.1 (fun _ => rfl)

/-! ## Analysis adapter theorems -/

/-- C6: when the vision request throws, `generateMusicFromImage` does not
propagate the error — it returns the fallback tuple selected by the random
draw, and every draw lands in the fixed four-element fallback list — with
confidence forced to `0.1`; a successful call carries the fixed `0.85`. -/
theorem generateMusicFromImage_fallback
    (errMsg : String) (jsonParse : String → Option Claude.ParsedPrompt)
    (rand : Fin 4) (generatedAt processingTime : Nat) (rawResponse : String) :
    (let r := Claude.generateMusicFromImage (Except.error errMsg) jsonParse rand
        generatedAt processingTime
     Claude.ParsedPrompt.mk r.prompt r.makeInstrumental r.sceneDescription =
        Claude.getFallbackPrompt rand ∧
     r.confidence = 1 / 10) ∧
    Claude.getFallbackPrompt rand ∈ Claude.fallbacks ∧
    Claude.fallbacks.length = 4 ∧
    (Claude.generateMusicFromImage (Except.ok rawResponse) jsonParse rand
        generatedAt processingTime).confidence = 85 / 100 := by
  refine ⟨⟨rfl, rfl⟩, ?_, rfl, rfl⟩
  exact List.get_mem _ _ _

/-! ## Scene-change detector theorems -/

/-- C9: with fewer than two buffered images for the device, `detectSceneChange`
returns `true`, whatever the threshold. -/
theorem detectSceneChange_insufficient_history
    (downsample : List Nat → List (Fin 256)) (buf : ImageBuffer.BufferMap)
    (deviceId : String) (threshold : ℚ)
    (h : ((buf.map Prod.snd).filter
        (fun img => img.metadata.deviceId = deviceId)).length < 2) :
    ImageBuffer.detectSceneChange downsample buf deviceId threshold = true := by
  have hlen : (ImageBuffer.getRecentImages buf deviceId 2).length < 2 := by
    unfold ImageBuffer.getRecentImages
    rw [List.length_take, List.length_mergeSort]
    omega
  simp only [ImageBuffer.detectSceneChange]
  rw [if_pos hlen]

theorem detectSceneChange_insufficient_history_witness :
    ImageBuffer.detectSceneChange (fun _ => []) [] "D1" (3 / 10) = true :=
  detectSceneChange_insufficient_history (fun _ => []) [] "D1" (3 / 10) (by decide)

theorem sum_count_fin (l : List (Fin 256)) :
    (∑ v : Fin 256, l.count v) = l.length := by
  induction l with
  | nil => simp
  | cons a l ih =>
    simp only [List.count_cons, beq_iff_eq]
    rw [Finset.sum_add_distrib, ih]
    simp [Finset.sum_ite_eq]

theorem compareHistograms_count_self (l : List (Fin 256)) (h : l ≠ []) :
    ImageBuffer.compareHistograms (fun v => l.count v) (fun v => l.count v) = 1 := by
  unfold ImageBuffer.compareHistograms
  simp only [min_self, max_self]
  have hsum : (∑ i : Fin 256, ((l.count i : Nat) : ℚ)) = (l.length : ℚ) := by
    rw [← Nat.cast_sum, sum_count_fin]
  rw [hsum]
  have hne : (l.length : ℚ) ≠ 0 := by
    simp [List.length_eq_zero, h]
  rw [if_neg hne]
  exact div_self hne

/-- C8: when the two most recent buffered images for a device hold
byte-identical buffers (hence identical post-processing input to the
downsampler, producing a non-empty pixel array), the detector's histogram
similarity is exactly `1`, and `detectSceneChange` reports no change for
every threshold in `(0, 1)`. -/
theorem detectSceneChange_identical_images
    (downsample : List Nat → List (Fin 256)) (buf : ImageBuffer.BufferMap)
    (deviceId : String) (threshold : ℚ) (img1 img2 : ImageBuffer.BufferedImage)
    (hrec : ImageBuffer.getRecentImages buf deviceId 2 = [img1, img2])
    (hbytes : img1.buffer = img2.buffer)
    (hne : downsample img1.buffer ≠ [])
    (ht : 0 < threshold) (ht1 : threshold < 1) :
    ImageBuffer.compareHistograms
        (ImageBuffer.getImageHistogram downsample img1.buffer)
        (ImageBuffer.getImageHistogram downsample img2.buffer) = 1 ∧
    ImageBuffer.detectSceneChange downsample buf deviceId threshold = false := by
  have hhist : ImageBuffer.getImageHistogram downsample img2.buffer =
      ImageBuffer.getImageHistogram downsample img1.buffer := by
    rw [hbytes]
  have hsim : ImageBuffer.compareHistograms
      (ImageBuffer.getImageHistogram downsample img1.buffer)
      (ImageBuffer.getImageHistogram downsample img2.buffer) = 1 := by
    rw [hhist]
    exact compareHistograms_count_self (downsample img1.buffer) hne
  refine ⟨hsim, ?_⟩
  simp only [ImageBuffer.detectSceneChange, hrec]
  rw [if_neg (by simp)]
  rw [hsim]
  have hnotlt : ¬ ((1 : ℚ) < 1 - threshold) := by linarith
  exact decide_eq_false hnotlt

unseal List.mergeSort List.merge in
theorem detectSceneChange_identical_images_witness :
    ImageBuffer.compareHistograms
        (ImageBuffer.getImageHistogram ImageBuffer.demoDownsample
          (ImageBuffer.demoImage "a" "D1" 2 [5]).buffer)
        (ImageBuffer.getImageHistogram ImageBuffer.demoDownsample
          (ImageBuffer.demoImage "b" "D1" 1 [5]).buffer) = 1 ∧
    ImageBuffer.detectSceneChange ImageBuffer.demoDownsample
      [("a", ImageBuffer.demoImage "a" "D1" 2 [5]),
       ("b", ImageBuffer.demoImage "b" "D1" 1 [5])] "D1" (3 / 10) = false :=
  detectSceneChange_identical_images ImageBuffer.demoDownsample
    [("a", ImageBuffer.demoImage "a" "D1" 2 [5]),
     ("b", ImageBuffer.demoImage "b" "D1" 1 [5])] "D1" (3 / 10)
    (ImageBuffer.demoImage "a" "D1" 2 [5]) (ImageBuffer.demoImage "b" "D1" 1 [5])
    (by rfl) rfl (by decide) (by norm_num) (by norm_num)

/-! ## Eviction theorems -/

theorem mapDeleteAll_eq_filter {α : Type} (ks : List String)
    (m : List (String × α)) :
    mapDeleteAll m ks = m.filter (fun e => decide (e.1 ∉ ks)) := by
  induction ks generalizing m with
  | nil => simp [mapDeleteAll]
  | cons k ks ih =>
    have h1 := ih (m.filter (fun e => decide (e.1 ≠ k)))
    simp only [mapDeleteAll, List.foldl_cons] at h1 ⊢
    rw [h1, List.filter_filter]
    congr 1
    funext e
    by_cases hk : e.1 = k <;> by_cases hks : e.1 ∈ ks <;> simp [hk, hks]

theorem evictOldest_eq_filter {α : Type} (ts : α → Nat) (maxSize : Nat)
    (m : List (String × α)) (hover : ¬ m.length ≤ maxSize) :
    evictOldest ts maxSize m =
      m.filter (fun e => decide (e.1 ∉
        ((m.mergeSort (fun a b => decide (ts a.2 ≤ ts b.2))).take
          (m.length - maxSize)).map Prod.fst)) := by
  unfold evictOldest
  rw [if_neg hover]
  exact mapDeleteAll_eq_filter _ m

theorem evictOldest_perm_drop {α : Type} (ts : α → Nat) (maxSize : Nat)
    (m : List (String × α)) (hkeys : (m.map Prod.fst).Nodup)
    (hover : maxSize < m.length) :
    evictOldest ts maxSize m ~
      (m.mergeSort (fun a b => decide (ts a.2 ≤ ts b.2))).drop
        (m.length - maxSize) := by
  rw [evictOldest_eq_filter ts maxSize m (by omega)]
  have hperm : m.mergeSort (fun a b => decide (ts a.2 ≤ ts b.2)) ~ m :=
    List.mergeSort_perm m _
  generalize hS : m.mergeSort (fun a b => decide (ts a.2 ≤ ts b.2)) = S at *
  generalize hK : m.length - maxSize = k at *
  have hkeysS : (S.map Prod.fst).Nodup := (hperm.map Prod.fst).nodup_iff.mpr hkeys
  have hsplitkeys : ((S.take k).map Prod.fst ++ (S.drop k).map Prod.fst).Nodup := by
    rw [← List.map_append, List.take_append_drop]
    exact hkeysS
  have hdisj := (List.nodup_append.mp hsplitkeys).2.2
  set p : (String × α) → Bool := fun e => decide (e.1 ∉ (S.take k).map Prod.fst)
    with hp
  have hA : (S.take k).filter p = [] := by
    rw [List.filter_eq_nil_iff]
    intro e he
    simp only [hp, decide_eq_true_eq, not_not]
    exact List.mem_map_of_mem Prod.fst he
  have hB : (S.drop k).filter p = S.drop k := by
    rw [List.filter_eq_self]
    intro e he
    simp only [hp, decide_eq_true_eq]
    intro hmem
    exact hdisj hmem (List.mem_map_of_mem Prod.fst he)
  calc m.filter p
      ~ S.filter p := (hperm.filter p).symm
    _ = S.drop k := by
        conv_lhs => rw [← List.take_append_drop k S]
        rw [List.filter_append, hA, hB, List.nil_append]

theorem evictOldest_pairwise {α : Type} (ts : α → Nat) (m : List (String × α)) :
    (m.mergeSort (fun a b => decide (ts a.2 ≤ ts b.2))).Pairwise
      (fun a b => ts a.2 ≤ ts b.2) := by
  have h := @List.sorted_mergeSort (String × α)
    (fun a b => decide (ts a.2 ≤ ts b.2))
    (fun a b c hab hbc => by
      simp only [decide_eq_true_eq] at hab hbc ⊢
      omega)
    (fun a b => by
      simp only [Bool.or_eq_true, decide_eq_true_eq]
      omega)
    m
  exact h.imp (fun hab => by simpa using hab)

theorem evictOldest_spec {α : Type} (ts : α → Nat) (maxSize : Nat)
    (m : List (String × α))
    (hkeys : (m.map Prod.fst).Nodup)
    (hts : (m.map (fun e => ts e.2)).Nodup)
    (hover : maxSize < m.length) :
    (evictOldest ts maxSize m).length = maxSize ∧
    (∀ e ∈ m, e ∉ evictOldest ts maxSize m →
      ∀ e2 ∈ evictOldest ts maxSize m, ts e.2 < ts e2.2) ∧
    (∀ e ∈ m, m.countP (fun e2 => decide (ts e.2 < ts e2.2)) < maxSize →
      e ∈ evictOldest ts maxSize m) ∧
    (∀ e ∈ evictOldest ts maxSize m, e ∈ m) := by
  have hperm : m.mergeSort (fun a b => decide (ts a.2 ≤ ts b.2)) ~ m :=
    List.mergeSort_perm m _
  have hdropperm := evictOldest_perm_drop ts maxSize m hkeys hover
  have hpair := evictOldest_pairwise ts m
  generalize hS : m.mergeSort (fun a b => decide (ts a.2 ≤ ts b.2)) = S at *
  generalize hK : m.length - maxSize = k at *
  have hlenS : S.length = m.length := hperm.length_eq
  -- distinctness of the timestamps across the take/drop split
  have htsS : (S.map (fun e => ts e.2)).Nodup :=
    (hperm.map (fun e => ts e.2)).nodup_iff.mpr hts
  have hsplitts : ((S.take k).map (fun e => ts e.2) ++
      (S.drop k).map (fun e => ts e.2)).Nodup := by
    rw [← List.map_append, List.take_append_drop]
    exact htsS
  have htsdisj := (List.nodup_append.mp hsplitts).2.2
  -- the sorted split orders take-part below drop-part
  have hpairsplit : ∀ a ∈ S.take k, ∀ b ∈ S.drop k, ts a.2 ≤ ts b.2 := by
    have h := hpair
    rw [← List.take_append_drop k S] at h
    exact (List.pairwise_append.mp h).2.2
  have hstrictsplit : ∀ a ∈ S.take k, ∀ b ∈ S.drop k, ts a.2 < ts b.2 := by
    intro a ha b hb
    have hle := hpairsplit a ha b hb
    have hne : ts a.2 ≠ ts b.2 := by
      intro heq
      exact htsdisj (List.mem_map_of_mem _ ha)
        (heq ▸ List.mem_map_of_mem (fun e => ts e.2) hb)
    omega
  -- membership transfer
  have hmem_result : ∀ e, e ∈ evictOldest ts maxSize m ↔ e ∈ S.drop k :=
    fun e => hdropperm.mem_iff
  have hmem_take : ∀ e, e ∈ m → e ∉ evictOldest ts maxSize m → e ∈ S.take k := by
    intro e hem henot
    have heS : e ∈ S.take k ++ S.drop k := by
      rw [List.take_append_drop]
      exact hperm.mem_iff.mpr hem
    rcases List.mem_append.mp heS with h | h
    · exact h
    · exact absurd ((hmem_result e).mpr h) henot
  refine ⟨?_, ?_, ?_, ?_⟩
  · rw [hdropperm.length_eq, List.length_drop, hlenS]
    omega
  · intro e hem henot e2 he2
    exact hstrictsplit e (hmem_take e hem henot) e2 ((hmem_result e2).mp he2)
  · intro e hem hcount
    by_contra henot
    have hetake := hmem_take e hem henot
    have hdropcount : (S.drop k).countP (fun e2 => decide (ts e.2 < ts e2.2)) =
        (S.drop k).length := by
      rw [List.countP_eq_length]
      intro b hb
      simpa using hstrictsplit e hetake b hb
    have hcountm : m.countP (fun e2 => decide (ts e.2 < ts e2.2)) =
        S.countP (fun e2 => decide (ts e.2 < ts e2.2)) :=
      (hperm.countP_eq _).symm
    have hScount : S.countP (fun e2 => decide (ts e.2 < ts e2.2)) =
        (S.take k).countP (fun e2 => decide (ts e.2 < ts e2.2)) +
        (S.drop k).countP (fun e2 => decide (ts e.2 < ts e2.2)) := by
      conv_lhs => rw [← List.take_append_drop k S]
      rw [List.countP_append]
    have hdroplen : (S.drop k).length = maxSize := by
      rw [List.length_drop, hlenS]
      omega
    omega
  · intro e he
    exact hperm.mem_iff.mp (List.mem_of_mem_drop ((hmem_result e).mp he))

/-- C7: whenever the global record count exceeds the capacity bound,
`maintainBufferSize` (invoked by `addImage` right after each insertion)
shrinks the buffer to exactly the bound, every evicted record is strictly
older (by timestamp, globally across devices) than every surviving record,
any record with fewer than `maxBufferSize` strictly-newer records survives —
so the most recent `cap` records remain retrievable — and no record is
invented.  Timestamps are assumed pairwise distinct and the map keys unique
(a `Map` invariant). -/
theorem maintainBufferSize_evicts_oldest (maxBufferSize : Nat)
    (buf : ImageBuffer.BufferMap)
    (hkeys : (buf.map Prod.fst).Nodup)
    (hts : (buf.map (fun e => e.2.metadata.timestamp)).Nodup)
    (hover : maxBufferSize < buf.length) :
    (ImageBuffer.maintainBufferSize maxBufferSize buf).length = maxBufferSize ∧
    (∀ e ∈ buf, e ∉ ImageBuffer.maintainBufferSize maxBufferSize buf →
      ∀ e2 ∈ ImageBuffer.maintainBufferSize maxBufferSize buf,
        e.2.metadata.timestamp < e2.2.metadata.timestamp) ∧
    (∀ e ∈ buf,
      buf.countP
          (fun e2 => decide (e.2.metadata.timestamp < e2.2.metadata.timestamp)) <
        maxBufferSize →
      e ∈ ImageBuffer.maintainBufferSize maxBufferSize buf) ∧
    (∀ e ∈ ImageBuffer.maintainBufferSize maxBufferSize buf, e ∈ buf) := by
  have hmain : ImageBuffer.maintainBufferSize maxBufferSize buf =
      evictOldest (fun img => img.metadata.timestamp) maxBufferSize buf := rfl
  rw [hmain]
  exact evictOldest_spec (fun img => img.metadata.timestamp) maxBufferSize buf
    hkeys hts hover

theorem maintainBufferSize_evicts_oldest_witness :
    (let buf : ImageBuffer.BufferMap :=
      [("a", ImageBuffer.demoImage "a" "D1" 1 [1]),
       ("b", ImageBuffer.demoImage "b" "D1" 2 [2]),
       ("c", ImageBuffer.demoImage "c" "D2" 3 [3])]
     (ImageBuffer.maintainBufferSize 2 buf).length = 2 ∧
     (∀ e ∈ buf, e ∉ ImageBuffer.maintainBufferSize 2 buf →
       ∀ e2 ∈ ImageBuffer.maintainBufferSize 2 buf,
         e.2.metadata.timestamp < e2.2.metadata.timestamp) ∧
     (∀ e ∈ buf,
       buf.countP
           (fun e2 => decide (e.2.metadata.timestamp < e2.2.metadata.timestamp)) < 2 →
       e ∈ ImageBuffer.maintainBufferSize 2 buf) ∧
     (∀ e ∈ ImageBuffer.maintainBufferSize 2 buf, e ∈ buf)) :=
  maintainBufferSize_evicts_oldest 2
    [("a", ImageBuffer.demoImage "a" "D1" 1 [1]),
     ("b", ImageBuffer.demoImage "b" "D1" 2 [2]),
     ("c", ImageBuffer.demoImage "c" "D2" 3 [3])]
    (by decide) (by decide) (by decide)

/-! ## Stored-music cache theorems -/

unseal List.mergeSort List.merge in
/-- C10, counterexample: when the cache is at capacity and the entry being
stored carries the oldest timestamp, the eviction pass triggered by the very
`storeMusic` call removes the fresh entry, so the immediate
`getLatestMusic` for that device returns nothing rather than the stored
fields (cache bound `1`, resident entry at timestamp `5`, new entry at
timestamp `3`). -/
theorem storeMusic_roundTrip_counterexample :
    MusicStore.getLatestMusic
      (MusicStore.storeMusic 1
        (MusicStore.storeMusic 1 [] "A" (MusicStore.demoEntry "A" 5))
        "B" (MusicStore.demoEntry "B" 3))
      "B" = none := by
  rfl

/-- C10, amended: storing an entry and immediately querying latest-for-device
returns exactly the stored field values (with the `deviceId` field set from
the key), provided the store does not overflow the cache bound on that call —
i.e. whenever the insertion leaves the cache within `maxCacheSize`, so the
eviction pass does not run. -/
theorem storeMusic_roundTrip (maxCacheSize : Nat) (cache : MusicStore.MusicCache)
    (deviceId : String) (musicData : MusicStore.StoredMusicData)
    (hsize : (mapSet cache deviceId { musicData with deviceId := deviceId }).length ≤
      maxCacheSize) :
    MusicStore.getLatestMusic
        (MusicStore.storeMusic maxCacheSize cache deviceId musicData) deviceId =
      some { musicData with deviceId := deviceId } := by
  unfold MusicStore.storeMusic MusicStore.maintainCacheSize MusicStore.getLatestMusic
    evictOldest
  rw [if_pos hsize]
  exact mapGet_mapSet_self _ _ _

theorem storeMusic_roundTrip_witness :
    MusicStore.getLatestMusic
        (MusicStore.storeMusic 100 [] "D2" (MusicStore.demoEntry "other" 5)) "D2" =
      some { MusicStore.demoEntry "other" 5 with deviceId := "D2" } :=
  storeMusic_roundTrip 100 [] "D2" (MusicStore.demoEntry "other" 5) (by decide)

/-! ## Orchestrator theorems -/

/-- C1: with no run in flight for device `d1`, two qualifying inbound frames
for `d1` within the in-flight window both enter the buffer, yet exactly one
generation request is submitted for `d1`; a frame for a different idle device
`d2` in the same window still submits its own request, and once `d1`'s run
finishes a fresh frame starts the next run — runs are serialized per device
and unconstrained across devices. -/
theorem handleImageFrame_perDevice_serialization (s : Orchestrator.StreamState)
    (d1 d2 : String)
    (hflag : Orchestrator.isProcessing s d1 = false)
    (hne : d2 ≠ d1)
    (hflag2 : Orchestrator.isProcessing s d2 = false) :
    (let s2 := Orchestrator.handleImageFrame
        (Orchestrator.handleImageFrame s d1 true) d1 true
     s2.framesBuffered.count d1 = s.framesBuffered.count d1 + 2 ∧
     s2.generationsSubmitted.count d1 = s.generationsSubmitted.count d1 + 1 ∧
     Orchestrator.isProcessing s2 d1 = true ∧
     (Orchestrator.handleImageFrame s2 d2 true).generationsSubmitted.count d2 =
       s.generationsSubmitted.count d2 + 1 ∧
     (Orchestrator.handleImageFrame
         (Orchestrator.finishRun s2 d1) d1 true).generationsSubmitted.count d1 =
       s.generationsSubmitted.count d1 + 2) := by
  have e1 : Orchestrator.handleImageFrame s d1 true =
      { processingQueue := mapSet s.processingQueue d1 true,
        framesBuffered := s.framesBuffered ++ [d1],
        generationsSubmitted := s.generationsSubmitted ++ [d1] } := by
    unfold Orchestrator.handleImageFrame
    simp only [Orchestrator.isProcessing] at hflag ⊢
    simp [hflag]
  have e2 : Orchestrator.handleImageFrame (Orchestrator.handleImageFrame s d1 true)
      d1 true =
      { processingQueue := mapSet s.processingQueue d1 true,
        framesBuffered := (s.framesBuffered ++ [d1]) ++ [d1],
        generationsSubmitted := s.generationsSubmitted ++ [d1] } := by
    rw [e1]
    unfold Orchestrator.handleImageFrame
    simp [Orchestrator.isProcessing, mapGet_mapSet_self]
  rw [e2]
  refine ⟨?_, ?_, ?_, ?_, ?_⟩
  · simp [List.count_append]
  · simp [List.count_append]
  · simp [Orchestrator.isProcessing, mapGet_mapSet_self]
  · have hip2 : (mapGet (mapSet s.processingQueue d1 true) d2).getD false = false := by
      rw [mapGet_mapSet_ne _ _ _ _ hne]
      simpa [Orchestrator.isProcessing] using hflag2
    unfold Orchestrator.handleImageFrame
    simp only [Orchestrator.isProcessing]
    simp [hip2, List.count_append, List.count_singleton, Ne.symm hne]
  · have hip3 : (mapGet (mapSet (mapSet s.processingQueue d1 true) d1 false) d1).getD
        false = false := by
      rw [mapGet_mapSet_self]
      rfl
    unfold Orchestrator.handleImageFrame Orchestrator.finishRun
    simp only [Orchestrator.isProcessing]
    simp [hip3, List.count_append]

theorem handleImageFrame_perDevice_serialization_witness :
    (let s2 := Orchestrator.handleImageFrame
        (Orchestrator.handleImageFrame ⟨[], [], []⟩ "D1" true) "D1" true
     s2.framesBuffered.count "D1" = ([] : List String).count "D1" + 2 ∧
     s2.generationsSubmitted.count "D1" = ([] : List String).count "D1" + 1 ∧
     Orchestrator.isProcessing s2 "D1" = true ∧
     (Orchestrator.handleImageFrame s2 "D2" true).generationsSubmitted.count "D2" =
       ([] : List String).count "D2" + 1 ∧
     (Orchestrator.handleImageFrame
         (Orchestrator.finishRun s2 "D1") "D1" true).generationsSubmitted.count "D1" =
       ([] : List String).count "D1" + 2) :=
  handleImageFrame_perDevice_serialization ⟨[], [], []⟩ "D1" "D2" rfl
    (by decide) rfl

/-! ## Image buffer theorems -/

/-- C2, counterexample: `addImage` computes the stored hash from the
pre-processing input bytes, so with processing options that change the bytes
(here a transform standing for the resize/recompression) the stored hash is
not the hash of the record's post-processing `buffer` field. -/
theorem addImage_hash_counterexample :
    (let r := (ImageBuffer.addImage ImageBuffer.demoHash 20 [] [1, 2] "D1"
        "image/jpeg" none 0
        (some { transform := fun _ => [0], format := none })).1
     r.metadata.hash ≠ ImageBuffer.demoHash r.buffer) := by
  decide

/-- C2, amended: the content hash stored by `addImage` is a pure function of
the pre-processing input byte buffer (`hashFn imageBuffer`); it coincides
with raising the hash on the record's stored `buffer` field exactly in the
unprocessed case, where the record stores the input bytes unchanged. -/
theorem addImage_hash_of_input
    (hashFn : List Nat → String) (maxBufferSize : Nat)
    (buf : ImageBuffer.BufferMap) (imageBuffer : List Nat)
    (deviceId mimeType : String) (userId : Option String) (timestamp : Nat)
    (options : Option ImageBuffer.ProcessingOptions) :
    (ImageBuffer.addImage hashFn maxBufferSize buf imageBuffer deviceId mimeType
        userId timestamp options).1.metadata.hash = hashFn imageBuffer ∧
    (ImageBuffer.addImage hashFn maxBufferSize buf imageBuffer deviceId mimeType
        userId timestamp none).1.buffer = imageBuffer ∧
    (ImageBuffer.addImage hashFn maxBufferSize buf imageBuffer deviceId mimeType
        userId timestamp none).1.metadata.hash =
      hashFn (ImageBuffer.addImage hashFn maxBufferSize buf imageBuffer deviceId
        mimeType userId timestamp none).1.buffer :=
  ⟨rfl, rfl, rfl⟩

end HackMIT
